import Mathlib

/-!
# go-rabbitevent: listener registry, event dispatcher and AMQP consumer

A shallow embedding of `event/registry.go`, `event/dispatcher.go` and
`amqp/consumer.go`.

* Go slices are `Slice α` (the nil slice is kept apart from an allocated one).
* The `map[string][]Listener` of the registry is an association list with at
  most one entry per key.
* Receivers (`*ListenerRegistry`, `*Dispatcher`, `*Consumer`) stand for objects
  built by the package constructors; the `sync.RWMutex` of the registry makes
  each method body atomic and has no sequential effect, so it has no field here.
* A value of the interface type `Listener` is a `Listener L`: the nil interface
  or a handler of the application. `RegisterListener` stores either.
* The effects of `DispatchEvent` (allocation by `reflect.New`, `log.Printf`,
  `go listener.OnEvent(event)`) are recorded in an explicit `World`.
* `reflect`, `encoding/json` and the `amqp091` client are libraries outside the
  repository: they enter as parameters (`Codec`, `Broker`).
-/

namespace RabbitEvent

/-! ## Go values -/

/-- A Go slice value `[]α`: `nil` is the nil slice (the zero value), `mk xs` a
slice with backing storage holding `xs`. -/
inductive Slice (α : Type) where
  | nil : Slice α
  | mk (elems : List α) : Slice α
  deriving DecidableEq, Repr

namespace Slice

variable {α : Type}

/-- The elements a `for ... range` loop over the slice visits, in order. -/
def elems : Slice α → List α
  | nil => []
  | mk xs => xs

/-- Builtin `len(s)`. -/
def len (s : Slice α) : Nat := s.elems.length

/-- Builtin `append(s, x)`: the elements of `s` followed by `x`; the result is
never the nil slice. -/
def append (s : Slice α) (x : α) : Slice α := mk (s.elems ++ [x])

end Slice

/-- A Go `map[string]V` allocated by `make`: key/value entries, one per key. -/
abbrev GoMap (V : Type) := List (String × V)

namespace GoMap

variable {V : Type}

/-- The map `make(map[string]V)` returns: no entries. -/
def make : GoMap V := []

/-- The entry for key `k`, if the map has one (`v, ok := m[k]`). -/
def find : GoMap V → String → Option V
  | [], _ => none
  | (k', v) :: rest, k => if k' = k then some v else find rest k

/-- Index expression `m[k]`: the stored value, or the zero value `zero` of the
element type when the key is absent. -/
def index (m : GoMap V) (k : String) (zero : V) : V := (find m k).getD zero

/-- Assignment `m[k] = v`: overwrites the entry of `k` or adds one. -/
def store : GoMap V → String → V → GoMap V
  | [], k, v => [(k, v)]
  | (k', v') :: rest, k, v =>
    if k' = k then (k, v) :: rest else (k', v') :: store rest k v

end GoMap

/-! ## event/registry.go -/

/-- A value of the interface type `Listener`, over the handlers `L` of the
application: `none` is the nil interface value, `some h` holds the handler
`h`, whose method `OnEvent` can be called. -/
abbrev Listener (L : Type) := Option L

/-- The registry object: `listeners` maps a queue name to its listeners. The
map is the allocated one `NewListenerRegistry` puts there. -/
structure ListenerRegistry (L : Type) where
  listeners : GoMap (Slice L)

/-- Function `NewListenerRegistry`: a registry with `make(map[string][]Listener)`. -/
def NewListenerRegistry {L : Type} : ListenerRegistry L :=
  { listeners := GoMap.make }

/-- Method `RegisterListener`:
`r.listeners[queueName] = append(r.listeners[queueName], listener)`. -/
def ListenerRegistry.RegisterListener {L : Type} (r : ListenerRegistry L)
    (queueName : String) (listener : L) : ListenerRegistry L :=
  { listeners :=
      r.listeners.store queueName
        ((r.listeners.index queueName Slice.nil).append listener) }

/-- Method `GetListeners`: `return r.listeners[queueName]` (the nil slice when the
queue has no entry). -/
def ListenerRegistry.GetListeners {L : Type} (r : ListenerRegistry L)
    (queueName : String) : Slice L :=
  r.listeners.index queueName Slice.nil

/-- The registry after a sequence of `RegisterListener(queue, listener)` calls,
made in list order, on the registry `r`. -/
def registerAll {L : Type} (r : ListenerRegistry L) :
    List (String × L) → ListenerRegistry L
  | [] => r
  | (q, l) :: calls => registerAll (r.RegisterListener q l) calls

/-! ## event/dispatcher.go -/

/-- A byte sequence (`[]byte`). -/
abbrev Bytes := List UInt8

/-- What `DispatchEvent` takes from `reflect` and `encoding/json`, over the Go
types `Ty` and values `Val` of the application.

* `TypeOf v` is `reflect.TypeOf(v)` for a non-nil interface value `v`;
* `Zero t` is the zero value of `t`, which `reflect.New(t)` allocates;
* `Unmarshal data target` is `json.Unmarshal(data, p)` for a pointer `p` to an
  instance holding `target`: the content of the instance after the call, and
  the error (`none` is a nil error). -/
structure Codec (Ty Val : Type) where
  TypeOf : Val → Ty
  Zero : Ty → Val
  Unmarshal : Bytes → Val → Val × Option String

/-- A line written through the `log` package. -/
inductive LogLine where
  /-- Format `"Error unmarshaling message -> %v"` with the error. -/
  | unmarshalError (err : String)
  /-- Format `"Received a message on %s[%s]: %s\n"` with event name, queue name, body. -/
  | received (eventName queueName : String) (body : Bytes)
  /-- Text `" Waiting for messages... Exit by pressing CTRL+C"`. -/
  | waiting
  /-- Format `"error while closing amqp.Channel -> %v"`, written by `log.Fatalf`. -/
  | closeError (err : String)
  deriving DecidableEq, Repr

/-- The state `DispatchEvent` acts on.

* `heap`: the instances allocated by `reflect.New`; the pointer to an instance
  is its position in the list;
* `log`: the lines logged so far;
* `started`: the goroutines started by `go listener.OnEvent(event)`, in start
  order, each with its listener and the pointer it was handed. -/
structure World (L Val : Type) where
  heap : List Val
  log : List LogLine
  started : List (L × Nat)

/-- How a call of a function without results ends. -/
inductive Exit where
  | returned
  | panicked
  deriving DecidableEq, Repr

/-- The dispatcher object; `registry` is the current state of the registry it
points to, whose entries are values of the interface type `Listener`. -/
structure Dispatcher (L : Type) where
  registry : ListenerRegistry (Listener L)

/-- Function `NewEventDispatcher`: `&Dispatcher{registry: registry}`. -/
def NewEventDispatcher {L : Type} (registry : ListenerRegistry (Listener L)) :
    Dispatcher L :=
  { registry := registry }

/-- The statement `go listener.OnEvent(event)`. The method value
`listener.OnEvent` is evaluated in the calling goroutine: on the nil interface
that is a nil dereference, a panic of the caller, and no goroutine is started;
on a handler the goroutine is started and the statement is done. -/
def startOnEvent {L Val : Type} (event : Nat) (w : World L Val) (listener : Listener L) :
    Exit × World L Val :=
  match listener with
  | none => (Exit.panicked, w)
  | some handler => (Exit.returned, { w with started := w.started ++ [(handler, event)] })

/-- The loop `for _, listener := range listeners { go listener.OnEvent(event) }`
over the elements of the slice: a panic of the `go` statement ends it, and the
entries after that one are not reached. -/
def startListeners {L Val : Type} (event : Nat) :
    List (Listener L) → World L Val → Exit × World L Val
  | [], w => (Exit.returned, w)
  | listener :: rest, w =>
    match startOnEvent event w listener with
    | (Exit.panicked, w1) => (Exit.panicked, w1)
    | (Exit.returned, w1) => startListeners event rest w1

/-- Method `DispatchEvent`. `messageType` is an `interface{}`: `none` is the nil
interface, for which `reflect.TypeOf` gives the nil type and `reflect.New`
panics. The call also panics when the loop meets a nil `Listener`.

1. `event := reflect.New(reflect.TypeOf(messageType)).Interface()`;
2. `err := json.Unmarshal(message, event)`; on an error, log it and return;
3. `listeners := d.registry.GetListeners(queueName)`;
4. `for _, listener := range listeners { go listener.OnEvent(event) }`. -/
def Dispatcher.DispatchEvent {L Ty Val : Type} (c : Codec Ty Val) (d : Dispatcher L)
    (queueName : String) (message : Bytes) (messageType : Option Val)
    (w : World L Val) : Exit × World L Val :=
  match messageType with
  | none => (Exit.panicked, w)
  | some mt =>
    let event := w.heap.length
    let fresh := c.Zero (c.TypeOf mt)
    let decoded := c.Unmarshal message fresh
    let w1 : World L Val := { w with heap := w.heap ++ [decoded.1] }
    match decoded.2 with
    | some err =>
      (Exit.returned, { w1 with log := w1.log ++ [LogLine.unmarshalError err] })
    | none =>
      let listeners := d.registry.GetListeners queueName
      startListeners event listeners.elems w1

/-- The listeners started by a dispatch that took the world from `w` to `w1`. -/
def startedBy {L Val : Type} (w w1 : World L Val) : List (L × Nat) :=
  w1.started.drop w.started.length

/-! ## amqp/consumer.go -/

/-- The `amqp091` client, over its connections `Conn`, channels `Chan` and
delivery streams `Msgs` (`<-chan amqp.Delivery`). An `Except.error e` is a
non-nil error with text `e`.

* `Dial url` is `amqp.Dial(url)`;
* `Channel conn` is `conn.Channel()`;
* `Consume ch queue consumer autoAck exclusive noLocal noWait` is
  `ch.Consume(queue, consumer, autoAck, exclusive, noLocal, noWait, nil)`;
* `Close ch` is `ch.Close()` (`none` is a nil error). -/
structure Broker (Conn Chan Msgs : Type) where
  Dial : String → Except String Conn
  Channel : Conn → Except String Chan
  Consume : Chan → String → String → Bool → Bool → Bool → Bool → Except String Msgs
  Close : Chan → Option String

/-- A call made on the `amqp091` client. -/
inductive AmqpCall where
  | dial (url : String)
  | channel
  | consume (queue consumer : String) (autoAck exclusive noLocal noWait : Bool)
  | close
  deriving DecidableEq, Repr

/-- The consumer object. -/
structure Consumer (Conn : Type) where
  connection : Conn

/-- Builtin `len(s)` of a string: its length in bytes. -/
def strLen (s : String) : Nat := s.utf8ByteSize

/-- Function `NewConsumer`: the pair it returns (`none` for the consumer is the nil
pointer, `none` for the error is nil) and the client calls made, added to
`calls`. -/
def NewConsumer {Conn Chan Msgs : Type} (b : Broker Conn Chan Msgs)
    (connectionUrl : String) (calls : List AmqpCall) :
    (Option (Consumer Conn) × Option String) × List AmqpCall :=
  if strLen connectionUrl = 0 then
    ((none, some "'connectionUrl' not allowed to be empty"), calls)
  else
    match b.Dial connectionUrl with
    | Except.error err => ((none, some err), calls ++ [AmqpCall.dial connectionUrl])
    | Except.ok conn =>
      ((some { connection := conn }, none), calls ++ [AmqpCall.dial connectionUrl])

/-- The goroutine `StartListening` starts:
`for d := range messages { log.Printf(...); dispatcher.DispatchEvent(queueName, d.Body, messageType) }`,
with the variables it captures. -/
structure ConsumeLoop (L Val Msgs : Type) where
  messages : Msgs
  eventName : String
  queueName : String
  dispatcher : Dispatcher L
  messageType : Option Val

/-- The body of the consuming goroutine run on the deliveries `bodies` the
stream yields before it is closed: one log line and one `DispatchEvent` per
delivery. A panic of `DispatchEvent` ends the loop. -/
def ConsumeLoop.run {L Ty Val Msgs : Type} (c : Codec Ty Val)
    (g : ConsumeLoop L Val Msgs) : List Bytes → World L Val → Exit × World L Val
  | [], w => (Exit.returned, w)
  | body :: rest, w =>
    let w1 : World L Val :=
      { w with log := w.log ++ [LogLine.received g.eventName g.queueName body] }
    match g.dispatcher.DispatchEvent c g.queueName body g.messageType w1 with
    | (Exit.panicked, w2) => (Exit.panicked, w2)
    | (Exit.returned, w2) => ConsumeLoop.run c g rest w2

/-- The state `StartListening` acts on: the world of the dispatcher, the client
calls made so far, and the consuming goroutines started so far. -/
structure Proc (L Val Msgs : Type) where
  world : World L Val
  calls : List AmqpCall
  loops : List (ConsumeLoop L Val Msgs)

/-- How a call of `StartListening` ends: it returns an error value (`none` is
nil), it blocks forever, or the process exits in `log.Fatalf`. -/
inductive Ending where
  | returned (err : Option String)
  | blocked
  | exited
  deriving DecidableEq, Repr

/-- The state of a Go channel `chan bool` as a receiver meets it: whether it
has been closed, and the values offered by senders. -/
structure BoolChan where
  closed : Bool
  offered : List Bool
  deriving DecidableEq, Repr

/-- Call `make(chan bool)`: open, nothing offered. -/
def BoolChan.make : BoolChan := { closed := false, offered := [] }

/-- A receive `<-c`: it takes an offered value, or yields the zero value of a
closed channel, or blocks. -/
def BoolChan.recv (c : BoolChan) : Option Bool :=
  match c.offered with
  | v :: _ => some v
  | [] => if c.closed then some false else none

/-- The deferred function of `StartListening`, run when it returns `ret`:
`ch.Close()`, and `log.Fatalf` when that fails. -/
def deferredClose {L Val Conn Chan Msgs : Type} (b : Broker Conn Chan Msgs) (ch : Chan)
    (ret : Option String) (p : Proc L Val Msgs) : Ending × Proc L Val Msgs :=
  let p1 : Proc L Val Msgs := { p with calls := p.calls ++ [AmqpCall.close] }
  match b.Close ch with
  | some err =>
    (Ending.exited,
      { p1 with world := { p1.world with log := p1.world.log ++ [LogLine.closeError err] } })
  | none => (Ending.returned ret, p1)

/-- Method `StartListening`.

1. an empty `queueName`, then an empty `eventName`, is returned as an error;
2. `ch, err := c.connection.Channel()`, an error is returned;
3. `defer` closing `ch`;
4. `messages, err := ch.Consume(queueName, eventName, true, false, false, false, nil)`,
   an error is returned (through the deferred close);
5. `fe := make(chan bool)`; the consuming goroutine is started (it does not
   capture `fe`); a line is logged;
6. `<-fe`, then `return nil` (through the deferred close). -/
def Consumer.StartListening {L Val Conn Chan Msgs : Type} (b : Broker Conn Chan Msgs)
    (c : Consumer Conn) (queueName eventName : String) (dispatcher : Dispatcher L)
    (messageType : Option Val) (p : Proc L Val Msgs) : Ending × Proc L Val Msgs :=
  if strLen queueName = 0 then
    (Ending.returned (some "'queueName' not allowed to be empty"), p)
  else if strLen eventName = 0 then
    (Ending.returned (some "'eventName' not allowed to be empty"), p)
  else
    let p1 : Proc L Val Msgs := { p with calls := p.calls ++ [AmqpCall.channel] }
    match b.Channel c.connection with
    | Except.error err =>
      (Ending.returned (some ("failed to open a channel -> " ++ err)), p1)
    | Except.ok ch =>
      let p2 : Proc L Val Msgs :=
        { p1 with calls :=
            p1.calls ++ [AmqpCall.consume queueName eventName true false false false] }
      match b.Consume ch queueName eventName true false false false with
      | Except.error err =>
        deferredClose b ch (some ("failed to register a consumer -> " ++ err)) p2
      | Except.ok messages =>
        let fe := BoolChan.make
        let p3 : Proc L Val Msgs :=
          { p2 with loops := p2.loops ++
              [{ messages := messages, eventName := eventName, queueName := queueName,
                 dispatcher := dispatcher, messageType := messageType }] }
        let p4 : Proc L Val Msgs :=
          { p3 with world := { p3.world with log := p3.world.log ++ [LogLine.waiting] } }
        match fe.recv with
        | none => (Ending.blocked, p4)
        | some _ => deferredClose b ch none p4

/-! ## examples/examples.go, and concrete parameters -/

/-- The message type of `examples/examples.go`: `Field1 string` (JSON name
`field1`) and `Field2 int` (JSON name `field2`). -/
structure CustomMessage where
  Field1 : String
  Field2 : Int
  deriving DecidableEq, Repr

/-- The bytes of an ASCII text. -/
def ascii (s : String) : Bytes := s.toList.map (fun ch => ch.toNat.toUInt8)

/-- A payload with both fields of `CustomMessage`. -/
def payloadBoth : Bytes := ascii "\x7b\"field1\":\"a\",\"field2\":7\x7d"

/-- A payload with `field2` only. -/
def payloadField2 : Bytes := ascii "\x7b\"field2\":7\x7d"

/-- A truncated payload. -/
def payloadTruncated : Bytes := ascii "\x7b\"field1\":\"a"

/-- A codec over `CustomMessage` to run the definitions on: it decodes
`payloadBoth` and `payloadField2` into the target, setting the fields they
name and leaving the others as they are, and rejects every other payload. -/
def sampleCodec : Codec Unit CustomMessage where
  TypeOf := fun _ => ()
  Zero := fun _ => { Field1 := "", Field2 := 0 }
  Unmarshal := fun data target =>
    if data = payloadBoth then ({ Field1 := "a", Field2 := 7 }, none)
    else if data = payloadField2 then ({ target with Field2 := 7 }, none)
    else (target, some "unexpected end of JSON input")

/-- A registry with listeners `1`, `2`, `1` for `"orders"` (in that order) and
listener `9` for `"other"`. -/
def sampleRegistry : ListenerRegistry (Listener Nat) :=
  registerAll NewListenerRegistry
    [("orders", some 1), ("other", some 9), ("orders", some 2), ("orders", some 1)]

/-- A registry with three entries for `"orders"`: listener `1`, the nil
`Listener`, listener `2`, registered in that order. -/
def nilEntryRegistry : ListenerRegistry (Listener Nat) :=
  registerAll NewListenerRegistry [("orders", some 1), ("orders", none), ("orders", some 2)]

/-- A dispatcher over `nilEntryRegistry`. -/
def nilEntryDispatcher : Dispatcher Nat := NewEventDispatcher nilEntryRegistry

/-- A dispatcher over `sampleRegistry`. -/
def sampleDispatcher : Dispatcher Nat := NewEventDispatcher sampleRegistry

/-- A world in which nothing has happened yet. -/
def emptyWorld {L Val : Type} : World L Val := { heap := [], log := [], started := [] }

/-- The world the sample dispatches start in: nothing has happened yet. -/
def sampleWorld : World Nat CustomMessage := emptyWorld

/-- A broker over one connection, one channel and one delivery stream on
which every call succeeds. -/
def sampleBroker : Broker Unit Unit Unit where
  Dial := fun _ => Except.ok ()
  Channel := fun _ => Except.ok ()
  Consume := fun _ _ _ _ _ _ _ => Except.ok ()
  Close := fun _ => none

/-- A process state in which nothing has happened yet. -/
def emptyProc {L Val Msgs : Type} : Proc L Val Msgs :=
  { world := emptyWorld, calls := [], loops := [] }

/-! ## Lemmas on maps and the registry -/

theorem GoMap.find_store_same {V : Type} (m : GoMap V) (k : String) (v : V) :
    GoMap.find (GoMap.store m k v) k = some v := by
  induction m with
  | nil => simp [GoMap.store, GoMap.find]
  | cons e rest ih =>
    obtain ⟨k', v'⟩ := e
    by_cases h : k' = k
    · simp [GoMap.store, GoMap.find, h]
    · simp [GoMap.store, GoMap.find, h, ih]

theorem GoMap.find_store_other {V : Type} (m : GoMap V) (k q : String) (v : V)
    (hne : k ≠ q) : GoMap.find (GoMap.store m k v) q = GoMap.find m q := by
  induction m with
  | nil => simp [GoMap.store, GoMap.find, hne]
  | cons e rest ih =>
    obtain ⟨k', v'⟩ := e
    by_cases h : k' = k
    · subst h
      simp [GoMap.store, GoMap.find, hne]
    · simp only [GoMap.store, h, if_false, GoMap.find, ih]

theorem GetListeners_register_same {L : Type} (r : ListenerRegistry L)
    (q : String) (l : L) :
    (r.RegisterListener q l).GetListeners q
      = Slice.mk ((r.GetListeners q).elems ++ [l]) := by
  simp [ListenerRegistry.RegisterListener, ListenerRegistry.GetListeners,
    GoMap.index, GoMap.find_store_same, Slice.append]

theorem GetListeners_register_other {L : Type} (r : ListenerRegistry L)
    (a b : String) (l : L) (hne : a ≠ b) :
    (r.RegisterListener a l).GetListeners b = r.GetListeners b := by
  simp [ListenerRegistry.RegisterListener, ListenerRegistry.GetListeners,
    GoMap.index, GoMap.find_store_other _ _ _ _ hne]

/-- The listeners of queue `t` after a run of registrations: those the registry
had, followed by the listeners of the calls made for `t`, in call order. -/
theorem GetListeners_registerAll {L : Type} (calls : List (String × L))
    (r : ListenerRegistry L) (t : String) :
    ((registerAll r calls).GetListeners t).elems
      = (r.GetListeners t).elems
          ++ (calls.filter (fun c => decide (c.1 = t))).map Prod.snd := by
  induction calls generalizing r with
  | nil => simp [registerAll]
  | cons c calls ih =>
    obtain ⟨q, l⟩ := c
    by_cases h : q = t
    · subst h
      have hs : (Slice.mk ((r.GetListeners q).elems ++ [l])).elems
          = (r.GetListeners q).elems ++ [l] := rfl
      simp [registerAll, ih, GetListeners_register_same, hs]
    · simp [registerAll, ih, GetListeners_register_other _ _ _ _ h, h]

theorem GetListeners_new {L : Type} (t : String) :
    (NewListenerRegistry : ListenerRegistry L).GetListeners t = Slice.nil := by
  simp [NewListenerRegistry, ListenerRegistry.GetListeners, GoMap.index,
    GoMap.make, GoMap.find]

theorem GoMap.find_registerAll_none {L : Type} (calls : List (String × L))
    (r : ListenerRegistry L) (t : String) (hr : GoMap.find r.listeners t = none)
    (hcalls : ∀ c ∈ calls, c.1 ≠ t) :
    GoMap.find (registerAll r calls).listeners t = none := by
  induction calls generalizing r with
  | nil => simpa [registerAll] using hr
  | cons c calls ih =>
    obtain ⟨q, l⟩ := c
    have hq : q ≠ t := hcalls (q, l) (List.mem_cons_self _ _)
    apply ih
    · simpa [ListenerRegistry.RegisterListener, GoMap.find_store_other _ _ _ _ hq] using hr
    · intro c hc
      exact hcalls c (List.mem_cons_of_mem _ hc)

theorem strLen_eq_zero (s : String) : strLen s = 0 ↔ s = "" := by
  constructor
  · intro h
    obtain ⟨cs⟩ := s
    cases cs with
    | nil => rfl
    | cons ch cs =>
      exfalso
      have hp := Char.utf8Size_pos ch
      simp only [strLen, String.utf8ByteSize, String.utf8ByteSize.go] at h
      omega
  · intro h
    subst h
    rfl

/-- A slice without a nil `Listener` is the slice of its handlers. -/
theorem handlers_of_nonnil {L : Type} (ls : List (Listener L))
    (hnonnil : ∀ l ∈ ls, l ≠ none) : ls = (ls.filterMap id).map some := by
  induction ls with
  | nil => rfl
  | cons l ls ih =>
    cases l with
    | none => exact absurd rfl (hnonnil none (List.mem_cons_self _ _))
    | some h =>
      have ih1 := ih (fun l hl => hnonnil l (List.mem_cons_of_mem _ hl))
      simp only [List.filterMap_cons, id, List.map_cons]
      rw [← ih1]

/-- A handler occurs among handlers as often as its interface value among
their interface values. -/
theorem count_handlers {L : Type} [DecidableEq L] (hs : List L) (l : L) :
    hs.count l = (hs.map some).count (some l) := by
  induction hs with
  | nil => rfl
  | cons h hs ih =>
    by_cases hl : h = l
    · subst hl
      simp [ih]
    · simp [List.count_cons, ih, hl]

/-- The loop over handlers only: it runs to the end and starts one goroutine
per handler, in order. -/
theorem startListeners_handlers {L Val : Type} (event : Nat) (hs : List L)
    (w : World L Val) :
    startListeners event (hs.map some) w
      = (Exit.returned, { w with started := w.started ++ hs.map (fun h => (h, event)) }) := by
  induction hs generalizing w with
  | nil => simp [startListeners]
  | cons h hs ih => simp [startListeners, startOnEvent, ih]

/-- The loop over any slice: whether it ends or panics, it changes the world
only by the goroutines it starts, each on the pointer `event`. -/
theorem startListeners_world {L Val : Type} (event : Nat) (ls : List (Listener L))
    (w : World L Val) :
    ∃ hs : List L, (startListeners event ls w).2
      = { w with started := w.started ++ hs.map (fun h => (h, event)) } := by
  induction ls generalizing w with
  | nil => exact ⟨[], by simp [startListeners]⟩
  | cons l ls ih =>
    cases l with
    | none => exact ⟨[], by simp [startListeners, startOnEvent]⟩
    | some h =>
      obtain ⟨hs, hhs⟩ := ih ({ w with started := w.started ++ [(h, event)] })
      refine ⟨h :: hs, ?_⟩
      simp only [startListeners, startOnEvent, hhs]
      simp

/-- A dispatch of a payload the codec decodes without error, for a queue whose
listeners are the handlers `hs`: the call returns, one instance is allocated,
nothing is logged, and one `OnEvent` goroutine is started per handler. -/
theorem DispatchEvent_decoded {L Ty Val : Type} (c : Codec Ty Val) (d : Dispatcher L)
    (q : String) (message : Bytes) (mt : Val) (w : World L Val) (hs : List L)
    (hdec : (c.Unmarshal message (c.Zero (c.TypeOf mt))).2 = none)
    (hls : (d.registry.GetListeners q).elems = hs.map some) :
    d.DispatchEvent c q message (some mt) w
      = (Exit.returned,
          { heap := w.heap ++ [(c.Unmarshal message (c.Zero (c.TypeOf mt))).1],
            log := w.log,
            started := w.started ++ hs.map (fun h => (h, w.heap.length)) }) := by
  simp [Dispatcher.DispatchEvent, hdec, hls, startListeners_handlers]

/-- A dispatch of a payload the codec rejects with error `err`. -/
theorem DispatchEvent_rejected {L Ty Val : Type} (c : Codec Ty Val) (d : Dispatcher L)
    (q : String) (message : Bytes) (mt : Val) (w : World L Val) (err : String)
    (hdec : (c.Unmarshal message (c.Zero (c.TypeOf mt))).2 = some err) :
    d.DispatchEvent c q message (some mt) w
      = (Exit.returned,
          { heap := w.heap ++ [(c.Unmarshal message (c.Zero (c.TypeOf mt))).1],
            log := w.log ++ [LogLine.unmarshalError err],
            started := w.started }) := by
  simp [Dispatcher.DispatchEvent, hdec]

/-- Every dispatch with a non-nil `messageType`, whether it returns or panics
in the loop: one instance is allocated after those already there, and every
goroutine it starts is handed the pointer to that instance. -/
theorem DispatchEvent_world {L Ty Val : Type} (c : Codec Ty Val) (d : Dispatcher L)
    (q : String) (message : Bytes) (mt : Val) (w : World L Val) :
    ∃ hs : List L,
      (d.DispatchEvent c q message (some mt) w).2.heap
        = w.heap ++ [(c.Unmarshal message (c.Zero (c.TypeOf mt))).1]
      ∧ (d.DispatchEvent c q message (some mt) w).2.started
        = w.started ++ hs.map (fun h => (h, w.heap.length)) := by
  cases hdec : (c.Unmarshal message (c.Zero (c.TypeOf mt))).2 with
  | some err =>
    refine ⟨[], ?_⟩
    rw [DispatchEvent_rejected c d q message mt w err hdec]
    simp
  | none =>
    obtain ⟨hs, hhs⟩ := startListeners_world w.heap.length
      (d.registry.GetListeners q).elems
      ({ w with heap := w.heap ++ [(c.Unmarshal message (c.Zero (c.TypeOf mt))).1] } :
        World L Val)
    refine ⟨hs, ?_⟩
    simp [Dispatcher.DispatchEvent, hdec, hhs]

/-- Every dispatch with a non-nil `messageType` allocates one instance, after
those already there: what `json.Unmarshal` makes of the payload on the zero
value of the type. -/
theorem DispatchEvent_heap {L Ty Val : Type} (c : Codec Ty Val) (d : Dispatcher L)
    (q : String) (message : Bytes) (mt : Val) (w : World L Val) :
    (d.DispatchEvent c q message (some mt) w).2.heap
      = w.heap ++ [(c.Unmarshal message (c.Zero (c.TypeOf mt))).1] := by
  obtain ⟨hs, hheap, -⟩ := DispatchEvent_world c d q message mt w
  exact hheap

/-- The consuming goroutine with a non-nil `messageType`, on a queue without a
nil `Listener`, makes one dispatch per delivery: it runs to the end of the
stream, allocates one instance per delivery, and leaves the instances
allocated before untouched. -/
theorem ConsumeLoop_run_heap {L Ty Val Msgs : Type} (c : Codec Ty Val)
    (g : ConsumeLoop L Val Msgs) (mt : Val) (hmt : g.messageType = some mt)
    (hnonnil : ∀ l ∈ (g.dispatcher.registry.GetListeners g.queueName).elems, l ≠ none)
    (bodies : List Bytes) (w : World L Val) :
    (g.run c bodies w).1 = Exit.returned
    ∧ (g.run c bodies w).2.heap
        = w.heap ++ bodies.map (fun body => (c.Unmarshal body (c.Zero (c.TypeOf mt))).1) := by
  induction bodies generalizing w with
  | nil => simp [ConsumeLoop.run]
  | cons body rest ih =>
    have hexit : ∀ w1 : World L Val,
        (g.dispatcher.DispatchEvent c g.queueName body (some mt) w1).1 = Exit.returned := by
      intro w1
      cases hdec : (c.Unmarshal body (c.Zero (c.TypeOf mt))).2 with
      | none =>
        rw [DispatchEvent_decoded c _ _ body mt w1 _ hdec (handlers_of_nonnil _ hnonnil)]
      | some err => rw [DispatchEvent_rejected c _ _ body mt w1 err hdec]
    unfold ConsumeLoop.run
    rw [hmt]
    generalize hw1 : ({ w with log := w.log ++ [LogLine.received g.eventName g.queueName body] } :
      World L Val) = w1
    have hheap1 : w1.heap = w.heap := by rw [← hw1]
    have h1 := hexit w1
    have h2 := DispatchEvent_heap c g.dispatcher g.queueName body mt w1
    rcases hres : g.dispatcher.DispatchEvent c g.queueName body (some mt) w1 with ⟨ex, w2⟩
    rw [hres] at h1 h2
    simp only at h1 h2
    subst h1
    simp only [hres]
    refine ⟨(ih w2).1, ?_⟩
    rw [(ih w2).2, h2, hheap1]
    simp

/-- Registrations for one topic `t`, made in any order `calls2` of the calls
`calls1` on a registry without listeners for `t`: the lookup has one entry per
call, the listeners in the order the calls were made. -/
theorem GetListeners_serial {L : Type} (r : ListenerRegistry L) (t : String)
    (calls1 calls2 : List (String × L)) (hperm : calls2.Perm calls1)
    (htopic : ∀ c ∈ calls1, c.1 = t) (hnone : (r.GetListeners t).elems = []) :
    ((registerAll r calls2).GetListeners t).elems = calls2.map Prod.snd
    ∧ ((registerAll r calls2).GetListeners t).len = calls1.length
    ∧ ((registerAll r calls2).GetListeners t).elems.Perm (calls1.map Prod.snd) := by
  have hall : calls2.filter (fun c => decide (c.1 = t)) = calls2 := by
    apply List.filter_eq_self.mpr
    intro c hc
    simpa using htopic c (hperm.subset hc)
  have helems : ((registerAll r calls2).GetListeners t).elems = calls2.map Prod.snd := by
    rw [GetListeners_registerAll, hnone, hall]
    rfl
  refine ⟨helems, ?_, ?_⟩
  · simp [Slice.len, helems, hperm.length_eq]
  · rw [helems]
    exact hperm.map _

/-! ## The registry claims -/

/-- C1: for every registry `r`, topic `t` (the empty string included) and
listener `l`, `GetListeners(t)` after `RegisterListener(t, l)` is
`GetListeners(t)` before the call with `l` appended at the end. Every entry
keeps its position, the length grows by one whether or not `l` was already
registered, and a topic without an entry gets the one-element sequence.
`RegisterListener` is total: it has no failing outcome. -/
theorem RegisterListener_appends {L : Type} (r : ListenerRegistry L) (t : String) (l : L) :
    ((r.RegisterListener t l).GetListeners t).elems = (r.GetListeners t).elems ++ [l]
    ∧ (∀ i, i < (r.GetListeners t).len →
        ((r.RegisterListener t l).GetListeners t).elems[i]? = (r.GetListeners t).elems[i]?)
    ∧ ((r.RegisterListener t l).GetListeners t).elems[(r.GetListeners t).len]? = some l
    ∧ ((r.RegisterListener t l).GetListeners t).len = (r.GetListeners t).len + 1
    ∧ (GoMap.find r.listeners t = none →
        GoMap.find (r.RegisterListener t l).listeners t = some (Slice.mk [l]))
    ∧ ((r.RegisterListener "" l).GetListeners "").elems = (r.GetListeners "").elems ++ [l] := by
  have key : ∀ q : String,
      ((r.RegisterListener q l).GetListeners q).elems = (r.GetListeners q).elems ++ [l] := by
    intro q
    rw [GetListeners_register_same]
    rfl
  refine ⟨key t, ?_, ?_, ?_, ?_, key ""⟩
  · intro i hi
    rw [key t]
    exact List.getElem?_append_left hi
  · rw [key t]
    simp [Slice.len]
  · simp [Slice.len, key t]
  · intro hnone
    simp [ListenerRegistry.RegisterListener, GoMap.find_store_same, GoMap.index, hnone,
      Slice.append, Slice.elems]

/-- C2: for every registry built from `NewListenerRegistry` by any sequence of
`RegisterListener` calls, and every topic `t` no call was made for,
`GetListeners(t)` is the nil slice: a sequence of length 0 without elements.
`GetListeners` is total: it has no failing outcome. -/
theorem GetListeners_unregistered {L : Type} (calls : List (String × L)) (t : String)
    (hcalls : ∀ c ∈ calls, c.1 ≠ t) :
    (registerAll NewListenerRegistry calls).GetListeners t = Slice.nil
    ∧ ((registerAll NewListenerRegistry calls).GetListeners t).len = 0
    ∧ ((registerAll NewListenerRegistry calls).GetListeners t).elems = [] := by
  have h : (registerAll (NewListenerRegistry : ListenerRegistry L) calls).GetListeners t
      = Slice.nil := by
    have hf := GoMap.find_registerAll_none calls (NewListenerRegistry : ListenerRegistry L) t
      (by simp [NewListenerRegistry, GoMap.make, GoMap.find]) hcalls
    simp [ListenerRegistry.GetListeners, GoMap.index, hf]
  rw [h]
  exact ⟨rfl, rfl, rfl⟩

/-- The statement of C2 on the registry after `RegisterListener("a", 1)` and
`RegisterListener("b", 2)`, looked up for `"c"`. -/
theorem GetListeners_unregistered_witness :
    (∀ c ∈ [("a", 1), ("b", 2)], c.1 ≠ "c")
    ∧ (registerAll (NewListenerRegistry : ListenerRegistry Nat)
        [("a", 1), ("b", 2)]).GetListeners "c" = Slice.nil
    ∧ ((registerAll (NewListenerRegistry : ListenerRegistry Nat)
        [("a", 1), ("b", 2)]).GetListeners "c").len = 0
    ∧ ((registerAll (NewListenerRegistry : ListenerRegistry Nat)
        [("a", 1), ("b", 2)]).GetListeners "c").elems = [] :=
  ⟨by decide, GetListeners_unregistered [("a", 1), ("b", 2)] "c" (by decide)⟩

/-- C3: for every registry `r`, listener `l` and topics `a ≠ b`,
`RegisterListener(a, l)` leaves `GetListeners(b)` as it was. -/
theorem RegisterListener_other_topic {L : Type} (r : ListenerRegistry L) (a b : String)
    (l : L) (hab : a ≠ b) :
    (r.RegisterListener a l).GetListeners b = r.GetListeners b :=
  GetListeners_register_other r a b l hab

/-- The statement of C3 on a fresh registry: after `RegisterListener("A", 1)`
the lookup for `"B"` is still the lookup of the fresh registry. -/
theorem RegisterListener_other_topic_witness :
    "A" ≠ "B"
    ∧ ((NewListenerRegistry : ListenerRegistry Nat).RegisterListener "A" 1).GetListeners "B"
        = (NewListenerRegistry : ListenerRegistry Nat).GetListeners "B" :=
  ⟨by decide, RegisterListener_other_topic NewListenerRegistry "A" "B" 1 (by decide)⟩

/-! ## The dispatcher claims -/

/-- C4, as amended: for every topic, payload and shape (a non-nil
`messageType`) such that decoding the payload into a zero instance of the
shape succeeds, and every entry of `GetListeners(topic)` is a non-nil
`Listener`, `DispatchEvent` returns, logs nothing, and starts exactly the
goroutines `OnEvent` of the entries of `GetListeners(topic)`, in the order of
that sequence, one per entry (so a listener occurring `k` times is started `k`
times), all on the pointer to the one instance decoded by this call. When the
registry was built by the calls `calls`, that order is the order of the
registrations made for the topic. With zero listeners nothing is started and
nothing is logged. -/
theorem DispatchEvent_starts_listeners {L Ty Val : Type} [DecidableEq L] (c : Codec Ty Val)
    (d : Dispatcher L) (topic : String) (payload : Bytes) (shape : Val) (w : World L Val)
    (hdec : (c.Unmarshal payload (c.Zero (c.TypeOf shape))).2 = none)
    (hnonnil : ∀ l ∈ (d.registry.GetListeners topic).elems, l ≠ none) :
    (d.DispatchEvent c topic payload (some shape) w).1 = Exit.returned
    ∧ (d.DispatchEvent c topic payload (some shape) w).2.log = w.log
    ∧ (d.DispatchEvent c topic payload (some shape) w).2.heap
        = w.heap ++ [(c.Unmarshal payload (c.Zero (c.TypeOf shape))).1]
    ∧ (d.DispatchEvent c topic payload (some shape) w).2.started
        = w.started
          ++ ((d.registry.GetListeners topic).elems.filterMap id).map
              (fun l => (l, w.heap.length))
    ∧ (startedBy w (d.DispatchEvent c topic payload (some shape) w).2).map
          (fun s => some s.1)
        = (d.registry.GetListeners topic).elems
    ∧ (∀ l : L, ((startedBy w (d.DispatchEvent c topic payload (some shape) w).2).map
          Prod.fst).count l = (d.registry.GetListeners topic).elems.count (some l))
    ∧ (∀ s ∈ startedBy w (d.DispatchEvent c topic payload (some shape) w).2,
          s.2 = w.heap.length)
    ∧ (∀ calls : List (String × Listener L),
        d.registry = registerAll NewListenerRegistry calls →
        (startedBy w (d.DispatchEvent c topic payload (some shape) w).2).map
            (fun s => some s.1)
          = (calls.filter (fun r => decide (r.1 = topic))).map Prod.snd)
    ∧ ((d.registry.GetListeners topic).len = 0 →
        (d.DispatchEvent c topic payload (some shape) w).2.started = w.started
        ∧ (d.DispatchEvent c topic payload (some shape) w).2.log = w.log
        ∧ (d.DispatchEvent c topic payload (some shape) w).1 = Exit.returned) := by
  have hls := handlers_of_nonnil _ hnonnil
  generalize hhs : (d.registry.GetListeners topic).elems.filterMap id = hs at hls
  rw [DispatchEvent_decoded c d topic payload shape w hs hdec hls]
  have hstarted : startedBy w
      ({ heap := w.heap ++ [(c.Unmarshal payload (c.Zero (c.TypeOf shape))).1],
         log := w.log,
         started := w.started ++ hs.map (fun l => (l, w.heap.length)) } : World L Val)
      = hs.map (fun l => (l, w.heap.length)) := by
    simp [startedBy]
  have hfst : (hs.map (fun l => (l, w.heap.length))).map Prod.fst = hs := by
    simp [List.map_map, Function.comp_def]
  have hsome : (hs.map (fun l => (l, w.heap.length))).map (fun s => some s.1)
      = (d.registry.GetListeners topic).elems := by
    rw [hls]
    simp [List.map_map, Function.comp_def]
  refine ⟨rfl, rfl, rfl, rfl, ?_, ?_, ?_, ?_, ?_⟩
  · rw [hstarted, hsome]
  · intro l
    rw [hstarted, hfst, hls]
    exact count_handlers hs l
  · intro s hs1
    rw [hstarted] at hs1
    obtain ⟨l, -, rfl⟩ := List.mem_map.mp hs1
    rfl
  · intro calls hreg
    rw [hstarted, hsome, hreg, GetListeners_registerAll, GetListeners_new]
    simp [Slice.elems]
  · intro hlen
    have hnil : (d.registry.GetListeners topic).elems = [] :=
      List.length_eq_zero.mp hlen
    rw [hnil] at hls
    have hhs0 : hs = [] := by
      cases hs with
      | nil => rfl
      | cons h t => simp at hls
    simp [hhs0]

/-- C5: for every topic, registry and payload whose decoding into a zero
instance of the shape fails with an error `err`, `DispatchEvent` returns (it
does not panic), starts no `OnEvent` goroutine, and adds to the log the one
line that records `err`. -/
theorem DispatchEvent_decode_failure {L Ty Val : Type} (c : Codec Ty Val) (d : Dispatcher L)
    (topic : String) (payload : Bytes) (shape : Val) (w : World L Val) (err : String)
    (hdec : (c.Unmarshal payload (c.Zero (c.TypeOf shape))).2 = some err) :
    (d.DispatchEvent c topic payload (some shape) w).1 = Exit.returned
    ∧ (d.DispatchEvent c topic payload (some shape) w).2.started = w.started
    ∧ startedBy w (d.DispatchEvent c topic payload (some shape) w).2 = []
    ∧ (d.DispatchEvent c topic payload (some shape) w).2.log
        = w.log ++ [LogLine.unmarshalError err] := by
  rw [DispatchEvent_rejected c d topic payload shape w err hdec]
  refine ⟨rfl, rfl, ?_, rfl⟩
  simp [startedBy]

/-- The statement of C4 on `sampleDispatcher`, topic `"orders"` and
`payloadBoth`: the goroutines started are those of listeners `1`, `2`, `1`, in
this order, all on pointer `0`, which holds the decoded message. -/
theorem DispatchEvent_starts_listeners_witness :
    ((sampleCodec.Unmarshal payloadBoth
        (sampleCodec.Zero (sampleCodec.TypeOf { Field1 := "", Field2 := 0 }))).2 = none
      ∧ ∀ l ∈ (sampleDispatcher.registry.GetListeners "orders").elems, l ≠ none)
    ∧ (startedBy sampleWorld (sampleDispatcher.DispatchEvent sampleCodec "orders"
          payloadBoth (some { Field1 := "", Field2 := 0 }) sampleWorld).2).map
          (fun s => some s.1)
        = (sampleDispatcher.registry.GetListeners "orders").elems
    ∧ (sampleDispatcher.registry.GetListeners "orders").elems = [some 1, some 2, some 1]
    ∧ (sampleDispatcher.DispatchEvent sampleCodec "orders" payloadBoth
        (some { Field1 := "", Field2 := 0 }) sampleWorld).1 = Exit.returned
    ∧ (sampleDispatcher.DispatchEvent sampleCodec "orders" payloadBoth
        (some { Field1 := "", Field2 := 0 }) sampleWorld).2.started = [(1, 0), (2, 0), (1, 0)]
    ∧ (sampleDispatcher.DispatchEvent sampleCodec "orders" payloadBoth
        (some { Field1 := "", Field2 := 0 }) sampleWorld).2.heap
        = [{ Field1 := "a", Field2 := 7 }] :=
  ⟨⟨by decide, by decide⟩,
    (DispatchEvent_starts_listeners sampleCodec sampleDispatcher "orders" payloadBoth
      { Field1 := "", Field2 := 0 } sampleWorld (by decide) (by decide)).2.2.2.2.1,
    by decide, by decide, by decide, by decide⟩

/-- The counterexample to C4 as stated: on `nilEntryDispatcher`, whose entries
for `"orders"` are listener `1`, the nil `Listener` and listener `2`, the
payload `payloadBoth` is decoded without error, and yet `DispatchEvent` panics
at the second entry: one goroutine is started for three entries, and listener
`2` is not started. -/
theorem DispatchEvent_nil_listener_counterexample :
    (sampleCodec.Unmarshal payloadBoth
        (sampleCodec.Zero (sampleCodec.TypeOf { Field1 := "", Field2 := 0 }))).2 = none
    ∧ nilEntryRegistry
        = ((((NewListenerRegistry : ListenerRegistry (Listener Nat)).RegisterListener
              "orders" (some 1)).RegisterListener "orders" none).RegisterListener
              "orders" (some 2))
    ∧ (nilEntryDispatcher.registry.GetListeners "orders").elems = [some 1, none, some 2]
    ∧ (nilEntryDispatcher.DispatchEvent sampleCodec "orders" payloadBoth
        (some { Field1 := "", Field2 := 0 }) sampleWorld).1 = Exit.panicked
    ∧ startedBy sampleWorld (nilEntryDispatcher.DispatchEvent sampleCodec "orders"
        payloadBoth (some { Field1 := "", Field2 := 0 }) sampleWorld).2 = [(1, 0)]
    ∧ ¬ ((nilEntryDispatcher.DispatchEvent sampleCodec "orders" payloadBoth
            (some { Field1 := "", Field2 := 0 }) sampleWorld).1 = Exit.returned
          ∧ (startedBy sampleWorld (nilEntryDispatcher.DispatchEvent sampleCodec "orders"
              payloadBoth (some { Field1 := "", Field2 := 0 }) sampleWorld).2).length
            = (nilEntryDispatcher.registry.GetListeners "orders").len) := by
  refine ⟨by decide, rfl, by decide, by decide, by decide, ?_⟩
  intro h
  exact absurd h.1 (by decide)

/-- The statement of C5 on `sampleDispatcher`, topic `"orders"` and the
truncated payload: no goroutine is started and one line is logged. -/
theorem DispatchEvent_decode_failure_witness :
    (sampleCodec.Unmarshal payloadTruncated
        (sampleCodec.Zero (sampleCodec.TypeOf { Field1 := "", Field2 := 0 }))).2
      = some "unexpected end of JSON input"
    ∧ (sampleDispatcher.DispatchEvent sampleCodec "orders" payloadTruncated
        (some { Field1 := "", Field2 := 0 }) sampleWorld).1 = Exit.returned
    ∧ (sampleDispatcher.DispatchEvent sampleCodec "orders" payloadTruncated
        (some { Field1 := "", Field2 := 0 }) sampleWorld).2.started = sampleWorld.started
    ∧ startedBy sampleWorld (sampleDispatcher.DispatchEvent sampleCodec "orders"
        payloadTruncated (some { Field1 := "", Field2 := 0 }) sampleWorld).2 = []
    ∧ (sampleDispatcher.DispatchEvent sampleCodec "orders" payloadTruncated
        (some { Field1 := "", Field2 := 0 }) sampleWorld).2.log
        = sampleWorld.log ++ [LogLine.unmarshalError "unexpected end of JSON input"] :=
  ⟨by decide,
    DispatchEvent_decode_failure sampleCodec sampleDispatcher "orders" payloadTruncated
      { Field1 := "", Field2 := 0 } sampleWorld "unexpected end of JSON input" (by decide)⟩

/-- C7: the instance `DispatchEvent` hands to the listeners is a newly
allocated one, holding what `json.Unmarshal` makes of the payload on the zero
value of the type of `messageType`.

* Two `messageType` arguments of the same type give the same outcome and the
  same world, whatever their field values.
* The heap after the call is the heap before it followed by the new instance:
  every instance allocated earlier is where it was, unchanged, and the new
  pointer was not in use.
* Every goroutine started by the call is handed the new pointer.
* A field the decoding of this payload leaves as it finds it (a field absent
  from the payload) holds, in the new instance, the value it has in the zero
  value of the type.
* A later dispatch leaves the instance of this one as it is. -/
theorem DispatchEvent_fresh_instance {L Ty Val : Type} (c : Codec Ty Val) (d : Dispatcher L)
    (topic : String) (payload : Bytes) (mt1 mt2 : Val) (w : World L Val)
    (hty : c.TypeOf mt1 = c.TypeOf mt2) :
    d.DispatchEvent c topic payload (some mt1) w = d.DispatchEvent c topic payload (some mt2) w
    ∧ (d.DispatchEvent c topic payload (some mt1) w).2.heap
        = w.heap ++ [(c.Unmarshal payload (c.Zero (c.TypeOf mt1))).1]
    ∧ (∀ p, p < w.heap.length →
        (d.DispatchEvent c topic payload (some mt1) w).2.heap[p]? = w.heap[p]?)
    ∧ w.heap[w.heap.length]? = none
    ∧ (d.DispatchEvent c topic payload (some mt1) w).2.heap[w.heap.length]?
        = some (c.Unmarshal payload (c.Zero (c.TypeOf mt1))).1
    ∧ (∀ s ∈ startedBy w (d.DispatchEvent c topic payload (some mt1) w).2,
        s.2 = w.heap.length)
    ∧ (∀ (F : Type) (field : Val → F),
        (∀ target, field (c.Unmarshal payload target).1 = field target) →
        ∀ v, (d.DispatchEvent c topic payload (some mt1) w).2.heap[w.heap.length]? = some v →
          field v = field (c.Zero (c.TypeOf mt1)))
    ∧ (∀ (d2 : Dispatcher L) (topic2 : String) (payload2 : Bytes) (mt : Val),
        (d2.DispatchEvent c topic2 payload2 (some mt)
            (d.DispatchEvent c topic payload (some mt1) w).2).2.heap[w.heap.length]?
          = some (c.Unmarshal payload (c.Zero (c.TypeOf mt1))).1) := by
  have hheap := DispatchEvent_heap c d topic payload mt1 w
  have hnew : (d.DispatchEvent c topic payload (some mt1) w).2.heap[w.heap.length]?
      = some (c.Unmarshal payload (c.Zero (c.TypeOf mt1))).1 := by
    rw [hheap]
    simp
  refine ⟨?_, hheap, ?_, ?_, hnew, ?_, ?_, ?_⟩
  · simp only [Dispatcher.DispatchEvent, hty]
  · intro p hp
    rw [hheap]
    exact List.getElem?_append_left hp
  · simp
  · intro s hs
    obtain ⟨handlers, -, hst⟩ := DispatchEvent_world c d topic payload mt1 w
    rw [startedBy, hst, List.drop_left] at hs
    obtain ⟨l, -, rfl⟩ := List.mem_map.mp hs
    rfl
  · intro F field habsent v hv
    rw [hnew] at hv
    cases hv
    exact habsent _
  · intro d2 topic2 payload2 mt
    rw [DispatchEvent_heap c d2 topic2 payload2 mt, hheap]
    rw [List.getElem?_append_left (by simp)]
    simp

/-- The statement of C7 on `sampleDispatcher` and `payloadField2`: with
`messageType` holding `Field1 = "old"`, `Field2 = 9`, the dispatch is the one
for the zero `messageType`, and the instance handed out has `Field1 = ""` (the
zero value, not `"old"`) and `Field2 = 7`. -/
theorem DispatchEvent_fresh_instance_witness :
    sampleCodec.TypeOf { Field1 := "old", Field2 := 9 }
      = sampleCodec.TypeOf { Field1 := "", Field2 := 0 }
    ∧ sampleDispatcher.DispatchEvent sampleCodec "orders" payloadField2
        (some { Field1 := "old", Field2 := 9 }) sampleWorld
      = sampleDispatcher.DispatchEvent sampleCodec "orders" payloadField2
        (some { Field1 := "", Field2 := 0 }) sampleWorld
    ∧ (sampleDispatcher.DispatchEvent sampleCodec "orders" payloadField2
        (some { Field1 := "old", Field2 := 9 }) sampleWorld).2.heap
      = [{ Field1 := "", Field2 := 7 }]
    ∧ (∀ target, (sampleCodec.Unmarshal payloadField2 target).1.Field1 = target.Field1)
    ∧ (∀ v, (sampleDispatcher.DispatchEvent sampleCodec "orders" payloadField2
          (some { Field1 := "old", Field2 := 9 }) sampleWorld).2.heap[sampleWorld.heap.length]?
            = some v →
          v.Field1 = (sampleCodec.Zero (sampleCodec.TypeOf { Field1 := "old", Field2 := 9 })).Field1) :=
  ⟨rfl,
    (DispatchEvent_fresh_instance sampleCodec sampleDispatcher "orders" payloadField2
      { Field1 := "old", Field2 := 9 } { Field1 := "", Field2 := 0 } sampleWorld rfl).1,
    by decide,
    fun _ => rfl,
    (DispatchEvent_fresh_instance sampleCodec sampleDispatcher "orders" payloadField2
      { Field1 := "old", Field2 := 9 } { Field1 := "", Field2 := 0 } sampleWorld
      rfl).2.2.2.2.2.2.1 String CustomMessage.Field1 (fun _ => rfl)⟩

/-! ## The consumer claims -/

/-- C8: configuration errors come back to the caller at once.

* `NewConsumer` with the empty `connectionUrl` returns the nil consumer and an
  error, and makes no client call (no `Dial`).
* `StartListening` with the empty `queueName` returns an error and leaves the
  process state as it is: no channel is opened, nothing is consumed, no
  goroutine is started, nothing is dispatched.
* So does `StartListening` with a non-empty `queueName` and the empty
  `eventName`. -/
theorem config_errors_returned {L Val Conn Chan Msgs : Type} (b : Broker Conn Chan Msgs) :
    (∀ calls : List AmqpCall,
      NewConsumer b "" calls
        = ((none, some "'connectionUrl' not allowed to be empty"), calls))
    ∧ (∀ (c : Consumer Conn) (eventName : String) (d : Dispatcher L) (mt : Option Val)
        (p : Proc L Val Msgs),
        c.StartListening b "" eventName d mt p
          = (Ending.returned (some "'queueName' not allowed to be empty"), p))
    ∧ (∀ (c : Consumer Conn) (queueName : String) (d : Dispatcher L) (mt : Option Val)
        (p : Proc L Val Msgs), queueName ≠ "" →
        c.StartListening b queueName "" d mt p
          = (Ending.returned (some "'eventName' not allowed to be empty"), p)) := by
  refine ⟨?_, ?_, ?_⟩
  · intro calls
    simp [NewConsumer, (strLen_eq_zero "").mpr rfl]
  · intro c eventName d mt p
    simp [Consumer.StartListening, (strLen_eq_zero "").mpr rfl]
  · intro c queueName d mt p hq
    have hq0 : strLen queueName ≠ 0 := fun h => hq ((strLen_eq_zero queueName).mp h)
    simp [Consumer.StartListening, hq0, (strLen_eq_zero "").mpr rfl]

/-- The statement of C8 on `sampleBroker`, with `"custom_queue"` as the
non-empty queue name. -/
theorem config_errors_returned_witness :
    "custom_queue" ≠ ""
    ∧ NewConsumer sampleBroker "" []
        = ((none, some "'connectionUrl' not allowed to be empty"), [])
    ∧ (Consumer.StartListening sampleBroker { connection := () } "" "my_event"
          sampleDispatcher (some ({ Field1 := "", Field2 := 0 } : CustomMessage)) emptyProc)
        = (Ending.returned (some "'queueName' not allowed to be empty"), emptyProc)
    ∧ (Consumer.StartListening sampleBroker { connection := () } "custom_queue" ""
          sampleDispatcher (some ({ Field1 := "", Field2 := 0 } : CustomMessage)) emptyProc)
        = (Ending.returned (some "'eventName' not allowed to be empty"), emptyProc) :=
  ⟨by decide,
    (@config_errors_returned Nat CustomMessage Unit Unit Unit sampleBroker).1 [],
    (@config_errors_returned Nat CustomMessage Unit Unit Unit sampleBroker).2.1 _ _ _ _ _,
    (@config_errors_returned Nat CustomMessage Unit Unit Unit sampleBroker).2.2 _ _ _ _ _
      (by decide)⟩

/-- C10: `StartListening` never returns a nil error: whenever the call ends by
returning, the error it returns is not nil. When both names are non-empty and
`Channel` and `Consume` succeed, the call blocks in the receive from `fe`: the
client calls it has made are `Channel` and `Consume` and no `Close`, so the
`return nil` and the deferred close are not reached. -/
theorem StartListening_never_returns_nil {L Val Conn Chan Msgs : Type}
    (b : Broker Conn Chan Msgs) (c : Consumer Conn) (queueName eventName : String)
    (d : Dispatcher L) (mt : Option Val) (p : Proc L Val Msgs) :
    (∀ err, (c.StartListening b queueName eventName d mt p).1 = Ending.returned err →
      ∃ text, err = some text)
    ∧ (∀ (ch : Chan) (messages : Msgs), queueName ≠ "" → eventName ≠ "" →
        b.Channel c.connection = Except.ok ch →
        b.Consume ch queueName eventName true false false false = Except.ok messages →
        (c.StartListening b queueName eventName d mt p).1 = Ending.blocked
        ∧ (c.StartListening b queueName eventName d mt p).2.calls
            = p.calls ++ [AmqpCall.channel,
                AmqpCall.consume queueName eventName true false false false]
        ∧ AmqpCall.close ∉
            (c.StartListening b queueName eventName d mt p).2.calls.drop p.calls.length) := by
  have hrecv : BoolChan.make.recv = none := rfl
  constructor
  · intro err hret
    by_cases hq : strLen queueName = 0
    · simp [Consumer.StartListening, hq] at hret
      exact ⟨_, hret.symm⟩
    · by_cases he : strLen eventName = 0
      · simp [Consumer.StartListening, hq, he] at hret
        exact ⟨_, hret.symm⟩
      · cases hch : b.Channel c.connection with
        | error e =>
          simp [Consumer.StartListening, hq, he, hch] at hret
          exact ⟨_, hret.symm⟩
        | ok ch =>
          cases hco : b.Consume ch queueName eventName true false false false with
          | error e =>
            cases hcl : b.Close ch with
            | some ce =>
              simp [Consumer.StartListening, hq, he, hch, hco, deferredClose, hcl] at hret
            | none =>
              simp [Consumer.StartListening, hq, he, hch, hco, deferredClose, hcl] at hret
              exact ⟨_, hret.symm⟩
          | ok messages =>
            simp [Consumer.StartListening, hq, he, hch, hco, hrecv] at hret
  · intro ch messages hq he hch hco
    have hq0 : strLen queueName ≠ 0 := fun h => hq ((strLen_eq_zero queueName).mp h)
    have he0 : strLen eventName ≠ 0 := fun h => he ((strLen_eq_zero eventName).mp h)
    simp [Consumer.StartListening, hq0, he0, hch, hco, hrecv]

/-- The statement of C10 on `sampleBroker`, where `Channel` and `Consume`
succeed: `StartListening("custom_queue", "my_event", ...)` blocks after the
calls `Channel` and `Consume`. -/
theorem StartListening_never_returns_nil_witness :
    ("custom_queue" ≠ "" ∧ "my_event" ≠ ""
      ∧ sampleBroker.Channel (Consumer.mk ()).connection = Except.ok ()
      ∧ sampleBroker.Consume () "custom_queue" "my_event" true false false false = Except.ok ())
    ∧ (Consumer.StartListening sampleBroker { connection := () } "custom_queue" "my_event"
          sampleDispatcher (some ({ Field1 := "", Field2 := 0 } : CustomMessage)) emptyProc).1
        = Ending.blocked
    ∧ (Consumer.StartListening sampleBroker { connection := () } "custom_queue" "my_event"
          sampleDispatcher (some ({ Field1 := "", Field2 := 0 } : CustomMessage))
          emptyProc).2.calls
        = [AmqpCall.channel, AmqpCall.consume "custom_queue" "my_event" true false false false] :=
  ⟨⟨by decide, by decide, rfl, rfl⟩,
    ((StartListening_never_returns_nil sampleBroker { connection := () } "custom_queue"
      "my_event" sampleDispatcher (some ({ Field1 := "", Field2 := 0 } : CustomMessage))
      emptyProc).2 () () (by decide) (by decide) rfl rfl).1,
    ((StartListening_never_returns_nil sampleBroker { connection := () } "custom_queue"
      "my_event" sampleDispatcher (some ({ Field1 := "", Field2 := 0 } : CustomMessage))
      emptyProc).2 () () (by decide) (by decide) rfl rfl).2.1⟩

end RabbitEvent
